import Mathlib

/-!
# Verification of the thespis remote peer runtime against its specification

This file gives a shallow embedding in Lean 4 of the parts of the
`thespis_remote_impl` Rust crate that the checked claims are about:

* `src/thes_wf.rs` — the byte-level wire format `ThesWF` (header layout,
  accessors, `io::Write`, `Default`, `with_capacity`, `TryFrom<Vec<u8>>`);
* `src/relay_map.rs` — the relay service map (`make_call`);
* `src/service_map_macro.rs` — the macro-generated local service map
  (`Services::send_service`, `Services::call_service`, `RemoteAddr`);
* `src/remote/peer/close_connection.rs` — the `CloseConnection` handler;
* `src/remote/multi_service/codecs.rs` — the `Codecs` enum.

Byte buffers are modelled as `List Nat` (each element one byte) and machine
integers as `Nat` with explicit `% 2 ^ 64` where Rust `u64` arithmetic wraps.
Asynchronous code is modelled by passing the outcome of each await point as an
explicit parameter, and fallible code returns `Except`.
-/

instance {ε α : Type} [DecidableEq ε] [DecidableEq α] : DecidableEq (Except ε α) := by
  intro a b
  cases a <;> cases b
  case error.error x y =>
    exact if h : x = y then .isTrue (by rw [h]) else .isFalse (by intro he; cases he; exact h rfl)
  case error.ok x y => exact .isFalse (by intro he; cases he)
  case ok.error x y => exact .isFalse (by intro he; cases he)
  case ok.ok x y =>
    exact if h : x = y then .isTrue (by rw [h]) else .isFalse (by intro he; cases he; exact h rfl)

/-! ## Byte-level helpers -/

/-- The byte at index `i` of a buffer, `0` when out of range.  All in-range
uses below are guarded by length hypotheses, matching the Rust code where
out-of-range slicing would panic. -/
def byteAt (l : List Nat) (i : Nat) : Nat :=
  (l[i]?).getD 0

/-- Write the bytes `b` into `l` starting at `idx`, in place (the Rust
pattern `buf[idx .. idx + b.len()].write_…`). -/
def writeAt (l : List Nat) (idx : Nat) (b : List Nat) : List Nat :=
  l.take idx ++ b ++ l.drop (idx + b.length)

/-- Read a little-endian `u64` from the 8 bytes starting at `idx`
(`read_u64::<LittleEndian>` on the slice `[idx .. idx+8]`). -/
def readU64 (l : List Nat) (idx : Nat) : Nat :=
  byteAt l idx
    + 256 * byteAt l (idx + 1)
    + 65536 * byteAt l (idx + 2)
    + 16777216 * byteAt l (idx + 3)
    + 4294967296 * byteAt l (idx + 4)
    + 1099511627776 * byteAt l (idx + 5)
    + 281474976710656 * byteAt l (idx + 6)
    + 72057594037927936 * byteAt l (idx + 7)

/-- The 8 little-endian bytes of `v` as a `u64`
(`write_u64::<LittleEndian>`). -/
def toLE8 (v : Nat) : List Nat :=
  [ v % 256
  , v / 256 % 256
  , v / 65536 % 256
  , v / 16777216 % 256
  , v / 4294967296 % 256
  , v / 1099511627776 % 256
  , v / 281474976710656 % 256
  , v / 72057594037927936 % 256 ]

theorem toLE8_length (v : Nat) : (toLE8 v).length = 8 := rfl

theorem writeAt_length (l b : List Nat) (idx : Nat) (h : idx + b.length ≤ l.length) :
    (writeAt l idx b).length = l.length := by
  simp only [writeAt, List.length_append, List.length_take, List.length_drop]
  omega

theorem writeAt_getElem? (l b : List Nat) (idx i : Nat) (h : idx + b.length ≤ l.length) :
    (writeAt l idx b)[i]? =
      if i < idx then l[i]?
      else if i < idx + b.length then b[i - idx]?
      else l[i]? := by
  have htake : (l.take idx).length = idx := by
    simp only [List.length_take]; omega
  by_cases h1 : i < idx
  · simp only [writeAt, if_pos h1]
    rw [List.getElem?_append, if_pos (by simp only [List.length_append]; omega),
        List.getElem?_append, if_pos (by omega)]
    simp [List.getElem?_take, h1]
  · by_cases h2 : i < idx + b.length
    · simp only [writeAt, if_neg h1, if_pos h2]
      rw [List.getElem?_append, if_pos (by simp only [List.length_append]; omega),
          List.getElem?_append, if_neg (by omega)]
      simp [htake]
    · simp only [writeAt, if_neg h1, if_neg h2]
      rw [List.getElem?_append, if_neg (by simp only [List.length_append]; omega),
          List.getElem?_drop]
      congr 1
      simp only [List.length_append, htake]
      omega

theorem byteAt_writeAt_of_lt (l b : List Nat) (idx i : Nat)
    (h : idx + b.length ≤ l.length) (hi : i < idx) :
    byteAt (writeAt l idx b) i = byteAt l i := by
  simp [byteAt, writeAt_getElem? l b idx i h, hi]

theorem byteAt_writeAt_of_ge (l b : List Nat) (idx i : Nat)
    (h : idx + b.length ≤ l.length) (hi : idx + b.length ≤ i) :
    byteAt (writeAt l idx b) i = byteAt l i := by
  simp only [byteAt, writeAt_getElem? l b idx i h]
  rw [if_neg (by omega), if_neg (by omega)]

theorem byteAt_writeAt_mid (l b : List Nat) (idx i : Nat)
    (h : idx + b.length ≤ l.length) (h1 : idx ≤ i) (h2 : i < idx + b.length) :
    byteAt (writeAt l idx b) i = byteAt b (i - idx) := by
  simp only [byteAt, writeAt_getElem? l b idx i h]
  rw [if_neg (by omega), if_pos (by omega)]

theorem byteAt_append_of_lt (l r : List Nat) (i : Nat) (h : i < l.length) :
    byteAt (l ++ r) i = byteAt l i := by
  simp [byteAt, List.getElem?_append, h]

/-- Reading back a `u64` written with `toLE8` recovers the value mod `2 ^ 64`. -/
theorem readU64_writeAt_self (l : List Nat) (idx v : Nat) (h : idx + 8 ≤ l.length) :
    readU64 (writeAt l idx (toLE8 v)) idx = v % 18446744073709551616 := by
  have h8 : idx + (toLE8 v).length ≤ l.length := by rw [toLE8_length]; omega
  simp only [readU64]
  rw [byteAt_writeAt_mid l _ idx idx h8 (by omega) (by rw [toLE8_length]; omega),
      byteAt_writeAt_mid l _ idx (idx + 1) h8 (by omega) (by rw [toLE8_length]; omega),
      byteAt_writeAt_mid l _ idx (idx + 2) h8 (by omega) (by rw [toLE8_length]; omega),
      byteAt_writeAt_mid l _ idx (idx + 3) h8 (by omega) (by rw [toLE8_length]; omega),
      byteAt_writeAt_mid l _ idx (idx + 4) h8 (by omega) (by rw [toLE8_length]; omega),
      byteAt_writeAt_mid l _ idx (idx + 5) h8 (by omega) (by rw [toLE8_length]; omega),
      byteAt_writeAt_mid l _ idx (idx + 6) h8 (by omega) (by rw [toLE8_length]; omega),
      byteAt_writeAt_mid l _ idx (idx + 7) h8 (by omega) (by rw [toLE8_length]; omega)]
  simp only [Nat.sub_self, Nat.add_sub_cancel_left]
  simp only [toLE8, byteAt, List.getElem?_cons_zero, List.getElem?_cons_succ, Option.getD_some]
  omega

/-- Writing bytes at `idx` does not disturb a `u64` read from a disjoint
region. -/
theorem readU64_writeAt_disjoint (l b : List Nat) (idx j : Nat)
    (h : idx + b.length ≤ l.length) (hd : j + 8 ≤ idx ∨ idx + b.length ≤ j) :
    readU64 (writeAt l idx b) j = readU64 l j := by
  rcases hd with hd | hd
  · simp only [readU64]
    rw [byteAt_writeAt_of_lt l b idx j h (by omega),
        byteAt_writeAt_of_lt l b idx (j + 1) h (by omega),
        byteAt_writeAt_of_lt l b idx (j + 2) h (by omega),
        byteAt_writeAt_of_lt l b idx (j + 3) h (by omega),
        byteAt_writeAt_of_lt l b idx (j + 4) h (by omega),
        byteAt_writeAt_of_lt l b idx (j + 5) h (by omega),
        byteAt_writeAt_of_lt l b idx (j + 6) h (by omega),
        byteAt_writeAt_of_lt l b idx (j + 7) h (by omega)]
  · simp only [readU64]
    rw [byteAt_writeAt_of_ge l b idx j h (by omega),
        byteAt_writeAt_of_ge l b idx (j + 1) h (by omega),
        byteAt_writeAt_of_ge l b idx (j + 2) h (by omega),
        byteAt_writeAt_of_ge l b idx (j + 3) h (by omega),
        byteAt_writeAt_of_ge l b idx (j + 4) h (by omega),
        byteAt_writeAt_of_ge l b idx (j + 5) h (by omega),
        byteAt_writeAt_of_ge l b idx (j + 6) h (by omega),
        byteAt_writeAt_of_ge l b idx (j + 7) h (by omega)]

/-- Reading an 8-byte region entirely inside `l` ignores appended bytes. -/
theorem readU64_append_of_le (l r : List Nat) (j : Nat) (h : j + 8 ≤ l.length) :
    readU64 (l ++ r) j = readU64 l j := by
  simp only [readU64]
  rw [byteAt_append_of_lt l r j (by omega),
      byteAt_append_of_lt l r (j + 1) (by omega),
      byteAt_append_of_lt l r (j + 2) (by omega),
      byteAt_append_of_lt l r (j + 3) (by omega),
      byteAt_append_of_lt l r (j + 4) (by omega),
      byteAt_append_of_lt l r (j + 5) (by omega),
      byteAt_append_of_lt l r (j + 6) (by omega),
      byteAt_append_of_lt l r (j + 7) (by omega)]

/-- Dropping past the end of a written region is unaffected by the write. -/
theorem writeAt_drop (l b : List Nat) (idx j : Nat)
    (h : idx + b.length ≤ l.length) (hj : idx + b.length ≤ j) :
    (writeAt l idx b).drop j = l.drop j := by
  apply List.ext_getElem?
  intro i
  rw [List.getElem?_drop, List.getElem?_drop, writeAt_getElem? l b idx (j + i) h,
      if_neg (by omega), if_neg (by omega)]

/-! ## The `ThesWF` wire format (`src/thes_wf.rs`)

Constants from `thes_wf.rs` lines 18–28.  Note that `LEN_SID` and `LEN_CID`
are `8` in the source (`u64` fields). -/

def LEN_LEN : Nat := 8
def LEN_SID : Nat := 8
def LEN_CID : Nat := 8
def IDX_LEN : Nat := 0
def IDX_SID : Nat := LEN_LEN
def IDX_CID : Nat := IDX_SID + LEN_SID
def IDX_MSG : Nat := IDX_CID + LEN_CID
def LEN_HEADER : Nat := IDX_MSG

/-- `ThesWF { data: io::Cursor<Vec<u8>> }`: the frame is a window over its
raw byte buffer. -/
structure ThesWF where
  data : List Nat
deriving DecidableEq, Repr

namespace ThesWF

/-- `set_len`: write the length field little-endian at `IDX_LEN`. -/
def set_len (wf : ThesWF) (len : Nat) : ThesWF :=
  ⟨writeAt wf.data IDX_LEN (toLE8 len)⟩

/-- `sid()`: read the service id (a `u64`) at `IDX_SID`. -/
def sid (wf : ThesWF) : Nat :=
  readU64 wf.data IDX_SID

/-- `set_sid`. -/
def set_sid (wf : ThesWF) (s : Nat) : ThesWF :=
  ⟨writeAt wf.data IDX_SID (toLE8 s)⟩

/-- `cid()`: read the connection id (a `u64`) at `IDX_CID`. -/
def cid (wf : ThesWF) : Nat :=
  readU64 wf.data IDX_CID

/-- `set_cid`. -/
def set_cid (wf : ThesWF) (c : Nat) : ThesWF :=
  ⟨writeAt wf.data IDX_CID (toLE8 c)⟩

/-- `msg()`: the serialized payload, `&data[IDX_MSG..]`. -/
def msg (wf : ThesWF) : List Nat :=
  wf.data.drop IDX_MSG

/-- `len()`: the length field, read at `IDX_LEN`. -/
def len (wf : ThesWF) : Nat :=
  readU64 wf.data IDX_LEN

/-- `with_capacity(size)`: a zeroed header with the length field set to
`LEN_HEADER` (capacity is only an allocation hint and has no observable
effect on the byte content). -/
def with_capacity (_size : Nat) : ThesWF :=
  ThesWF.set_len ⟨List.replicate LEN_HEADER 0⟩ LEN_HEADER

/-- `io::Write::write`: seek to the end, append `buf`, then set the length
field to `self.len() + written`, a wrapping `u64` addition.  `self.len()`
is evaluated after the append, exactly as in the source closure. -/
def write (wf : ThesWF) (buf : List Nat) : ThesWF :=
  let appended := wf.data ++ buf
  ThesWF.set_len ⟨appended⟩ ((readU64 appended IDX_LEN + buf.length) % 18446744073709551616)

/-- `io::Write::flush`: always `Ok(())`. -/
def flush (_wf : ThesWF) : Except String Unit :=
  Except.ok ()

/-- `Default::default()`: writes `LEN_HEADER` zero bytes through the
`io::Write` impl into an empty buffer. -/
def default : ThesWF :=
  ThesWF.write ⟨[]⟩ (List.replicate LEN_HEADER 0)

end ThesWF

/-- `WireErr` (only the variant `TryFrom<Vec<u8>>` produces). -/
inductive WireErr where
  | deserialize (context : String)
deriving DecidableEq, Repr

/-- `TryFrom<Vec<u8>> for ThesWF`: reject inputs shorter than the header,
otherwise adopt the bytes unchanged. -/
def ThesWF.try_from (data : List Nat) : Except WireErr ThesWF :=
  if data.length < LEN_HEADER then
    Except.error (WireErr.deserialize "ThesWF: not enough bytes even for the header.")
  else
    Except.ok ⟨data⟩

/-! ## Errors and contexts

`ErrorContext`, `ThesRemoteErr` and `ConnectionError` are declared in sibling
crates (`thespis_remote` interface / `peer` module) whose definitions are not
under `src/`; their shape is reconstructed from their uses in `src/` and from
the spec's error taxonomy (§7: every error carries structured context
`{peer_id, peer_name, sid, cid, description}`). -/

/-- `ErrorContext` with `Default` giving all fields empty
(`ErrorContext::default()`). -/
structure ErrorContext where
  context   : Option String := none
  peer_id   : Option Nat    := none
  peer_name : Option String := none
  sid       : Option Nat    := none
  cid       : Option Nat    := none
deriving DecidableEq, Repr

/-- `ConnectionError`: the error kind a remote peer reports in answer to a
request.  Declared outside `src/`; the variants are those used in `src/` and
in the repository tests (`ConnectionError::Timeout(_)`,
`ConnectionError::UnknownService(Vec<u8>)`). -/
inductive ConnectionError where
  | timeout (payload : List Nat)
  | unknownService (sid_bytes : List Nat)
  | deserialize
  | serialize
  | lostRelay
  | internalServerError
deriving DecidableEq, Repr

/-- Whether a `ConnectionError` is the `Timeout` variant. -/
def ConnectionError.is_timeout : ConnectionError → Bool
  | .timeout _ => true
  | _ => false

/-- `ThesRemoteErr`: the local error enum, one constructor per kind used by
the code under `src/`. -/
inductive ThesRemoteErr where
  | deserialize (ctx : ErrorContext)
  | serialize (ctx : ErrorContext)
  | unknownService (ctx : ErrorContext)
  | noHandler (ctx : ErrorContext)
  | downcast (ctx : ErrorContext)
  | handlerDead (ctx : ErrorContext)
  | relayGone (ctx : ErrorContext) (relay_id : Nat) (relay_name : Option String)
  | connectionClosed (ctx : ErrorContext)
  | timeout (ctx : ErrorContext)
  | remote (err : ConnectionError) (ctx : ErrorContext)
deriving DecidableEq, Repr

/-! ## Frames at the `WireFormat` abstraction level

The service maps and the peer manipulate frames only through the
`WireFormat` trait (`service()`, `conn_id()`, `mesg()`, `create`), so at
this level a frame is its three fields. -/

/-- A wire frame as seen through the `WireFormat` trait. -/
structure Frame where
  sid     : Nat
  cid     : Nat
  payload : List Nat
deriving DecidableEq, Repr

/-- `WireFormat::create(sid, cid, mesg)`. -/
def WireFormat.create (sid cid : Nat) (mesg : List Nat) : Frame :=
  ⟨sid, cid, mesg⟩

/-- `ConnID::null()`: the all-zero connection id marking a send. -/
def ConnID.null : Nat := 0

/-- `ServiceID::full()`: the all-ones service id marking a response frame
(8 bytes in `ThesWF`). -/
def ServiceID.full : Nat := 18446744073709551615

/-- `Call::new(frame)`: the control message wrapping an outbound call frame;
the Peer answers it with a single-shot receiver for the correlated
response. -/
structure Call where
  frame : Frame
deriving DecidableEq, Repr

def Call.new (f : Frame) : Call := ⟨f⟩

/-- `Peer::err_ctx(&peer, sid, cid, context)`. Modelled from the spec:
`Peer::err_ctx` lives in the peer module outside `src/`; per §7 every error
context carries `{peer_id, peer_name, sid, cid, description}`. -/
def Peer.err_ctx (peer_id : Nat) (peer_name : Option String) (sid cid : Nat)
    (context : String) : ErrorContext :=
  { context := some context, peer_id := some peer_id, peer_name := peer_name,
    sid := some sid, cid := some cid }

/-- Serialization of an error kind into a response payload; the concrete
encoding is opaque to the claims, any injective encoding serves. -/
def serialize_connection_error : ConnectionError → List Nat
  | .timeout p => 0 :: p
  | .unknownService s => 1 :: s
  | .deserialize => [2]
  | .serialize => [3]
  | .lostRelay => [4]
  | .internalServerError => [5]

/-- `Peer::prep_error(cid, err)`. Modelled from the spec: `prep_error` is
Peer code outside `src/`; per §9 a remote error response "is a frame with
the same cid, sid = FULL, and a serialized error-kind payload". -/
def Peer.prep_error (cid : Nat) (e : ConnectionError) : Frame :=
  ⟨ServiceID.full, cid, serialize_connection_error e⟩

/-! ## RelayMap (`src/relay_map.rs`) -/

/-- The messages `make_call` sends to its own peer's address: outgoing
wire frames (`peer.send(resp)` / `peer.send(wire_format)`) and
`RequestError` notifications. -/
inductive PeerMsg where
  | wire_format (f : Frame)
  | request_error (e : ThesRemoteErr)
deriving DecidableEq, Repr

/-- The outcome of the await points inside `make_call`, passed explicitly:
`relay.call(..)` can fail (mailbox closed), the returned `called` can be
`Err` (sending out over the relay connection failed), the single-shot
receiver can be canceled, or it resolves with the remote's
`Result<WireFormat, ConnectionError>`. -/
inductive RelayOutcome where
  | mailbox_closed
  | send_failed
  | receiver_canceled
  | response (r : Except ConnectionError Frame)
deriving DecidableEq, Repr

/-- `make_call` from `src/relay_map.rs` lines 120–237: relays a call frame
to a downstream peer.  Returns the list of messages sent to the upstream
peer's own address together with the future's return value. -/
def make_call (peer_id : Nat) (peer_name : Option String)
    (relay_id : Nat) (relay_name : Option String)
    (frame : Frame) (outcome : RelayOutcome) :
    List PeerMsg × Except ThesRemoteErr Unit :=
  let sid := frame.sid
  let cid := frame.cid
  let ctx := Peer.err_ctx peer_id peer_name sid cid "Process incoming Call to relay"
  match outcome with
  | .mailbox_closed =>
      ([], Except.error (ThesRemoteErr.relayGone ctx relay_id relay_name))
  | .send_failed =>
      ([PeerMsg.request_error (ThesRemoteErr.relayGone ctx relay_id relay_name)],
       Except.ok ())
  | .receiver_canceled =>
      ([PeerMsg.request_error (ThesRemoteErr.relayGone ctx relay_id relay_name)],
       Except.ok ())
  | .response (.ok resp) =>
      ([PeerMsg.wire_format resp], Except.ok ())
  | .response (.error e) =>
      ([PeerMsg.wire_format (Peer.prep_error cid e)], Except.ok ())

/-- `Response` as the spec §4.3 describes the result of `call_service`. -/
inductive Response where
  | nothing
  | call_response (f : Frame)
  | wire_format (f : Frame)
deriving DecidableEq, Repr

/-- Modelled from the spec: `RelayMap::call_service` per §4.5 — "on success,
wrap the returned response frame as `Response::CallResponse`; on a
remote-side error, convert the error into a wire-format error frame (same
cid, …) and return it as `Response::WireFormat`", with the relay returning
a `Response` value and sending nothing itself.  This is the spec-side
definition used to compare against `make_call` above. -/
def call_service_spec (peer_id : Nat) (peer_name : Option String)
    (relay_id : Nat) (relay_name : Option String)
    (frame : Frame) (outcome : RelayOutcome) :
    List PeerMsg × Except ThesRemoteErr Response :=
  let ctx := Peer.err_ctx peer_id peer_name frame.sid frame.cid
    "Process incoming Call to relay"
  match outcome with
  | .response (.ok resp) => ([], Except.ok (Response.call_response resp))
  | .response (.error e) =>
      ([], Except.ok (Response.wire_format (Peer.prep_error frame.cid e)))
  | _ => ([], Except.error (ThesRemoteErr.relayGone ctx relay_id relay_name))

/-! ## The macro-generated local service map (`src/service_map_macro.rs`)

The `service_map!` macro expands, for a fixed namespace and list of declared
services, into a `Services` struct holding type-erased handler addresses
keyed by `ServiceID`.  The expansion is modelled with the declared service
ids as data, a handler table, and per-service deserialization passed as an
oracle `deser : sid → payload → Option message` standing for
`serde_cbor::from_slice` at the service's message type. -/

/-- A stored handler: the boxed `Receiver` kept in the `handlers` map.
`well_typed` records whether `downcast_ref::<Receiver<S>>()` succeeds
(registration always stores the right type, so it is `true` in practice;
the code still checks). -/
structure HandlerEntry where
  id : Nat
  well_typed : Bool
deriving DecidableEq, Repr

/-- Association-list lookup, standing for `HashMap::get`. -/
def assocLookup {α : Type} : List (Nat × α) → Nat → Option α
  | [], _ => none
  | (k, v) :: rest, key => if k = key then some v else assocLookup rest key

/-- The `Services` service map: the declared service ids of the macro
invocation and the registered handlers. -/
structure Services where
  declared : List Nat
  handlers : List (Nat × HandlerEntry)
deriving DecidableEq, Repr

/-- The dispatch future a successful `send_service`/`call_service` returns:
deliver message `message` to handler `handler` (for calls, together with the
request cid echoed in the response). -/
inductive DispatchTask where
  | send (handler : Nat) (message : Nat)
  | call (handler : Nat) (message : Nat) (cid : Nat)
deriving DecidableEq, Repr

namespace Services

/-- `Services::send_service` (`service_map_macro.rs` lines 463–520):
look the sid up in `handlers` (absent → `NoHandler` with a default
context), then match it against the declared services (downcast, then
deserialize, then return the send future); a sid in the map but not
declared also yields `NoHandler`. -/
def send_service (sm : Services) (deser : Nat → List Nat → Option Nat)
    (msg : Frame) : Except ThesRemoteErr DispatchTask :=
  match assocLookup sm.handlers msg.sid with
  | none => Except.error (ThesRemoteErr.noHandler {})
  | some receiver =>
    if msg.sid ∈ sm.declared then
      if receiver.well_typed then
        match deser msg.sid msg.payload with
        | some message => Except.ok (DispatchTask.send receiver.id message)
        | none => Except.error (ThesRemoteErr.deserialize {})
      else Except.error (ThesRemoteErr.downcast {})
    else Except.error (ThesRemoteErr.noHandler {})

/-- `Services::call_service_gen` (lines 324–418): deserialize first, then
downcast, then produce the call future (which will later serialize the
handler's answer into a `sid = FULL` response frame carrying the same
cid). -/
def call_service_gen (receiver : HandlerEntry) (sid cid : Nat)
    (payload : List Nat) (deser : Nat → List Nat → Option Nat) :
    Except ThesRemoteErr DispatchTask :=
  match deser sid payload with
  | none => Except.error (ThesRemoteErr.deserialize {})
  | some message =>
    if receiver.well_typed then Except.ok (DispatchTask.call receiver.id message cid)
    else Except.error (ThesRemoteErr.downcast {})

/-- `Services::call_service` (lines 538–570): look the sid up in `handlers`
(absent → `NoHandler` with a default context), then match it against the
declared services; the fallthrough arm (sid in the map but not declared)
yields `UnknownService`. -/
def call_service (sm : Services) (deser : Nat → List Nat → Option Nat)
    (msg : Frame) : Except ThesRemoteErr DispatchTask :=
  match assocLookup sm.handlers msg.sid with
  | none => Except.error (ThesRemoteErr.noHandler {})
  | some receiver =>
    if msg.sid ∈ sm.declared then
      call_service_gen receiver msg.sid msg.cid msg.payload deser
    else Except.error (ThesRemoteErr.unknownService {})

end Services

/-! ## `RemoteAddr` (`src/service_map_macro.rs` lines 579–828) -/

/-- What `RemoteAddr` submits to its peer: `Sink::start_send` hands over a
plain `WireFormat` frame (no pending entry is created for it), while
`call` submits a `Call` (for which the Peer registers a pending entry and
hands back a single-shot receiver). -/
inductive PeerSubmission where
  | wire_frame (f : Frame)
  | call (c : Call)
deriving DecidableEq, Repr

/-- `RemoteAddr::build_ms(msg, cid)`: serialize the message
(`serde_cbor::to_vec`, outcome passed as `ser`), then
`WireFormat::create(sid, cid, serialized)`.  On failure the `Serialize`
error context records the sid and the "Outgoing request" description. -/
def RemoteAddr.build_ms (sid : Nat) (ser : Except Unit (List Nat)) (cid : Nat) :
    Except ThesRemoteErr Frame :=
  match ser with
  | .error _ =>
      Except.error (ThesRemoteErr.serialize
        { context := some "Outgoing request", sid := some sid })
  | .ok serialized => Except.ok (WireFormat.create sid cid serialized)

/-- `Sink::start_send for RemoteAddr` (lines 794–811): build the frame with
`ConnID::null()` and hand it to the peer's `Sink::<WireFormat>` — a plain
frame submission, no pending entry. -/
def RemoteAddr.start_send (sid : Nat) (ser : Except Unit (List Nat)) :
    Except ThesRemoteErr PeerSubmission :=
  (RemoteAddr.build_ms sid ser ConnID.null).map PeerSubmission.wire_frame

/-- The submission part of `RemoteAddr::call` (lines 645–656): draw a fresh
`ConnID::random()` (passed here as `cid`), build the frame with it and
submit `Call::new(frame)` to the peer, which pairs it with a single-shot
receiver. -/
def RemoteAddr.call_submit (sid : Nat) (ser : Except Unit (List Nat)) (cid : Nat) :
    Except ThesRemoteErr PeerSubmission :=
  (RemoteAddr.build_ms sid ser cid).map (fun f => PeerSubmission.call (Call.new f))

/-- A single-shot (`oneshot`) receive: either the sender delivered a value,
or the sender was dropped and the receiver resolves canceled. -/
inductive OneshotRecv (α : Type) where
  | received (a : α)
  | canceled
deriving DecidableEq, Repr

/-- `RemoteAddr::call`, awaiting the receiver (lines 676–693): a canceled
channel (peer stopped before answering) becomes `ConnectionClosed` with
full context. -/
def RemoteAddr.await_rx {α : Type} (peer_id : Nat) (peer_name : Option String)
    (sid cid : Nat) : OneshotRecv α → Except ThesRemoteErr α
  | .received a => Except.ok a
  | .canceled =>
      Except.error (ThesRemoteErr.connectionClosed
        { context := some "Peer stopped before receiving response from remote call",
          peer_id := some peer_id, peer_name := peer_name,
          sid := some sid, cid := some cid })

/-- `RemoteAddr::call`, mapping an error the remote returned (lines
725–760): `ConnectionError::Timeout(_)` is special-cased into the local
`Timeout` kind (with its context description replaced); every other remote
kind is wrapped as `Remote`. -/
def RemoteAddr.map_remote_err (ctx : ErrorContext) (err : ConnectionError) :
    ThesRemoteErr :=
  match err with
  | .timeout _ =>
      ThesRemoteErr.timeout
        { ctx with context := some "Time out waiting for response to outgoing call" }
  | e => ThesRemoteErr.remote e ctx

/-! ## The `CloseConnection` handler (`src/remote/peer/close_connection.rs`) -/

/-- The outbound sink half of the connection. -/
structure Sink where
  closed : Bool
deriving DecidableEq, Repr

/-- `Sink::close`. -/
def Sink.close (s : Sink) : Sink :=
  { s with closed := true }

/-- The `Peer` actor state, with the fields the `CloseConnection` handler
touches (`addr` is the peer's own address; `responses` is the pending-call
table mapping each in-flight cid to its single-shot sender). -/
structure PeerState where
  addr          : Option Nat
  outgoing      : Option Sink
  listen_handle : Option Nat
  services      : List Nat
  local_sm      : List (Nat × Nat)
  relay         : List (Nat × Nat)
  responses     : List (Nat × Nat)
deriving DecidableEq, Repr

/-- `Handler<CloseConnection> for Peer` (lines 30–62): drop `addr`, and if
the outbound sink is still there, close it and clear the listen handle, the
service registrations and the pending-call table (clearing `responses`
drops every stored single-shot sender).  Returns the new state together
with the sink that was closed, if any. -/
def Peer.handle_close_connection (s : PeerState) : PeerState × Option Sink :=
  let s0 := { s with addr := none }
  match s0.outgoing with
  | some out =>
      ({ s0 with outgoing := none, listen_handle := none,
                 services := [], local_sm := [], relay := [], responses := [] },
       some out.close)
  | none => (s0, none)

/-! ## `Codecs` (`src/remote/multi_service/codecs.rs`) -/

/-- The codec identifier enum; `CBOR = 0x51` from the multiformat
multicodec table. -/
inductive Codecs where
  | CBOR
deriving DecidableEq, Repr

/-- `ToPrimitive::to_u32` for `Codecs`. -/
def Codecs.to_u32 : Codecs → Nat
  | .CBOR => 0x51

/-- `FromPrimitive::from_u32` for `Codecs`. -/
def Codecs.from_u32 (n : Nat) : Option Codecs :=
  if n = 0x51 then some Codecs.CBOR else none

/-- The 4 little-endian bytes of a `u32` (`write_u32::<LittleEndian>`). -/
def toLE4 (v : Nat) : List Nat :=
  [v % 256, v / 256 % 256, v / 65536 % 256, v / 16777216 % 256]

/-- `Into<Bytes> for Codecs`: the codec number as a little-endian `u32`. -/
def Codecs.into_bytes (c : Codecs) : List Nat :=
  toLE4 c.to_u32

/-- `read_u32::<LittleEndian>` from a byte cursor: needs at least 4 bytes
(the source unwraps the read with `expect`, so a shorter input panics —
modelled as `none`). -/
def read_u32_le (b : List Nat) : Option Nat :=
  match b with
  | b0 :: b1 :: b2 :: b3 :: _ => some (b0 + 256 * b1 + 65536 * b2 + 16777216 * b3)
  | _ => none

/-- `TryFrom<Bytes> for Codecs`: read a `u32` little-endian and convert;
an unknown number yields the conversion error.  The outer `Option` is
`none` exactly when the 4-byte read itself panics. -/
def Codecs.try_from (b : List Nat) : Option (Except String Codecs) :=
  (read_u32_le b).map fun num =>
    match Codecs.from_u32 num with
    | some c => Except.ok c
    | none => Except.error "Failed to convert u32 to Codecs"

/-! ## Frames reachable through the public `ThesWF` operations -/

/-- The frames the public `ThesWF` construction and mutation operations can
produce.  The `write` step carries the machine constraint that a `Vec<u8>`
(and hence the buffer plus what is appended) stays below `2 ^ 64` bytes. -/
inductive ThesWF.Reachable : ThesWF → Prop where
  | default_ : ThesWF.Reachable ThesWF.default
  | with_capacity (size : Nat) : ThesWF.Reachable (ThesWF.with_capacity size)
  | write (wf : ThesWF) (buf : List Nat) : ThesWF.Reachable wf →
      wf.data.length + buf.length < 18446744073709551616 →
      ThesWF.Reachable (wf.write buf)
  | set_sid (wf : ThesWF) (s : Nat) : ThesWF.Reachable wf →
      ThesWF.Reachable (wf.set_sid s)
  | set_cid (wf : ThesWF) (c : Nat) : ThesWF.Reachable wf →
      ThesWF.Reachable (wf.set_cid c)

/-! ## Helper lemmas about `ThesWF` -/

theorem drop_append_of_le (l r : List Nat) (n : Nat) (h : n ≤ l.length) :
    (l ++ r).drop n = l.drop n ++ r := by
  apply List.ext_getElem?
  intro i
  rw [List.getElem?_drop, List.getElem?_append, List.getElem?_append]
  by_cases hi : n + i < l.length
  · rw [if_pos hi, if_pos (by simp only [List.length_drop]; omega), List.getElem?_drop]
  · rw [if_neg hi, if_neg (by simp only [List.length_drop]; omega)]
    congr 1
    simp only [List.length_drop]
    omega

theorem ThesWF.data_write (wf : ThesWF) (buf : List Nat) :
    (wf.write buf).data =
      writeAt (wf.data ++ buf) IDX_LEN
        (toLE8 ((readU64 (wf.data ++ buf) IDX_LEN + buf.length) % 18446744073709551616)) := rfl

theorem ThesWF.length_write (wf : ThesWF) (buf : List Nat)
    (h : 8 ≤ wf.data.length) :
    (wf.write buf).data.length = wf.data.length + buf.length := by
  rw [ThesWF.data_write, writeAt_length _ _ _ (by
        simp only [toLE8_length, List.length_append, IDX_LEN]; omega)]
  simp

theorem ThesWF.len_write (wf : ThesWF) (buf : List Nat) (h : 8 ≤ wf.data.length)
    (hov : wf.len + buf.length < 18446744073709551616) :
    (wf.write buf).len = wf.len + buf.length := by
  simp only [ThesWF.len, ThesWF.data_write, IDX_LEN]
  rw [readU64_writeAt_self _ _ _ (by simp only [List.length_append]; omega),
      readU64_append_of_le wf.data buf 0 (by omega)]
  have hov2 : readU64 wf.data 0 + buf.length < 18446744073709551616 := by
    simpa only [ThesWF.len, IDX_LEN] using hov
  rw [Nat.mod_eq_of_lt hov2, Nat.mod_eq_of_lt hov2]

theorem ThesWF.msg_write (wf : ThesWF) (buf : List Nat)
    (h : LEN_HEADER ≤ wf.data.length) :
    (wf.write buf).msg = wf.msg ++ buf := by
  have h24 : (24 : Nat) ≤ wf.data.length := h
  simp only [ThesWF.msg, ThesWF.data_write, IDX_MSG, IDX_CID, IDX_SID, LEN_LEN,
    LEN_SID, LEN_CID, IDX_LEN]
  rw [writeAt_drop _ _ _ _ (by simp only [toLE8_length, List.length_append]; omega)
        (by simp only [toLE8_length]; omega),
      drop_append_of_le wf.data buf 24 h24]

theorem ThesWF.sid_write (wf : ThesWF) (buf : List Nat)
    (h : LEN_HEADER ≤ wf.data.length) :
    (wf.write buf).sid = wf.sid := by
  have h24 : (24 : Nat) ≤ wf.data.length := h
  simp only [ThesWF.sid, ThesWF.data_write, IDX_SID, LEN_LEN, IDX_LEN]
  rw [readU64_writeAt_disjoint _ _ _ _
        (by simp only [toLE8_length, List.length_append]; omega)
        (Or.inr (by simp only [toLE8_length]; omega)),
      readU64_append_of_le wf.data buf 8 (by omega)]

theorem ThesWF.cid_write (wf : ThesWF) (buf : List Nat)
    (h : LEN_HEADER ≤ wf.data.length) :
    (wf.write buf).cid = wf.cid := by
  have h24 : (24 : Nat) ≤ wf.data.length := h
  simp only [ThesWF.cid, ThesWF.data_write, IDX_CID, IDX_SID, LEN_LEN, LEN_SID, IDX_LEN]
  rw [readU64_writeAt_disjoint _ _ _ _
        (by simp only [toLE8_length, List.length_append]; omega)
        (Or.inr (by simp only [toLE8_length]; omega)),
      readU64_append_of_le wf.data buf 16 (by omega)]

theorem ThesWF.sid_set_sid (wf : ThesWF) (s : Nat) (h : 16 ≤ wf.data.length) :
    (wf.set_sid s).sid = s % 18446744073709551616 := by
  simp only [ThesWF.sid, ThesWF.set_sid, IDX_SID, LEN_LEN]
  exact readU64_writeAt_self wf.data 8 s (by omega)

theorem ThesWF.cid_set_cid (wf : ThesWF) (c : Nat) (h : 24 ≤ wf.data.length) :
    (wf.set_cid c).cid = c % 18446744073709551616 := by
  simp only [ThesWF.cid, ThesWF.set_cid, IDX_CID, IDX_SID, LEN_LEN, LEN_SID]
  exact readU64_writeAt_self wf.data 16 c (by omega)

theorem ThesWF.cid_set_sid (wf : ThesWF) (s : Nat) (h : 16 ≤ wf.data.length) :
    (wf.set_sid s).cid = wf.cid := by
  simp only [ThesWF.cid, ThesWF.set_sid, IDX_CID, IDX_SID, LEN_LEN, LEN_SID]
  exact readU64_writeAt_disjoint wf.data _ 8 16 (by simp only [toLE8_length]; omega)
    (Or.inr (by simp only [toLE8_length]; omega))

theorem ThesWF.sid_set_cid (wf : ThesWF) (c : Nat) (h : 24 ≤ wf.data.length) :
    (wf.set_cid c).sid = wf.sid := by
  simp only [ThesWF.sid, ThesWF.set_cid, IDX_CID, IDX_SID, LEN_LEN, LEN_SID]
  exact readU64_writeAt_disjoint wf.data _ 16 8 (by simp only [toLE8_length]; omega)
    (Or.inl (by omega))

theorem ThesWF.len_set_sid (wf : ThesWF) (s : Nat) (h : 16 ≤ wf.data.length) :
    (wf.set_sid s).len = wf.len := by
  simp only [ThesWF.len, ThesWF.set_sid, IDX_SID, IDX_LEN, LEN_LEN]
  exact readU64_writeAt_disjoint wf.data _ 8 0 (by simp only [toLE8_length]; omega)
    (Or.inl (by omega))

theorem ThesWF.len_set_cid (wf : ThesWF) (c : Nat) (h : 24 ≤ wf.data.length) :
    (wf.set_cid c).len = wf.len := by
  simp only [ThesWF.len, ThesWF.set_cid, IDX_CID, IDX_SID, IDX_LEN, LEN_LEN, LEN_SID]
  exact readU64_writeAt_disjoint wf.data _ 16 0 (by simp only [toLE8_length]; omega)
    (Or.inl (by omega))

theorem ThesWF.msg_set_sid (wf : ThesWF) (s : Nat) (h : 16 ≤ wf.data.length) :
    (wf.set_sid s).msg = wf.msg := by
  simp only [ThesWF.msg, ThesWF.set_sid, IDX_MSG, IDX_CID, IDX_SID, LEN_LEN,
    LEN_SID, LEN_CID]
  exact writeAt_drop wf.data _ 8 24 (by simp only [toLE8_length]; omega)
    (by simp only [toLE8_length]; omega)

theorem ThesWF.msg_set_cid (wf : ThesWF) (c : Nat) (h : 24 ≤ wf.data.length) :
    (wf.set_cid c).msg = wf.msg := by
  simp only [ThesWF.msg, ThesWF.set_cid, IDX_MSG, IDX_CID, IDX_SID, LEN_LEN,
    LEN_SID, LEN_CID]
  exact writeAt_drop wf.data _ 16 24 (by simp only [toLE8_length]; omega)
    (by simp only [toLE8_length]; omega)

theorem ThesWF.length_set_sid (wf : ThesWF) (s : Nat) (h : 16 ≤ wf.data.length) :
    (wf.set_sid s).data.length = wf.data.length := by
  simp only [ThesWF.set_sid, IDX_SID, LEN_LEN]
  exact writeAt_length wf.data _ 8 (by simp only [toLE8_length]; omega)

theorem ThesWF.length_set_cid (wf : ThesWF) (c : Nat) (h : 24 ≤ wf.data.length) :
    (wf.set_cid c).data.length = wf.data.length := by
  simp only [ThesWF.set_cid, IDX_CID, IDX_SID, LEN_LEN, LEN_SID]
  exact writeAt_length wf.data _ 16 (by simp only [toLE8_length]; omega)

/-- Invariant of the reachable frames: the length field always tracks the
buffer length, which never drops below the header size. -/
theorem ThesWF.reachable_invariant (wf : ThesWF) (h : ThesWF.Reachable wf) :
    wf.len = wf.data.length ∧ LEN_HEADER ≤ wf.data.length := by
  induction h with
  | default_ => exact ⟨by decide, by decide⟩
  | with_capacity size =>
    have he : ThesWF.with_capacity size = ThesWF.with_capacity 0 := rfl
    rw [he]
    exact ⟨by decide, by decide⟩
  | write wf buf _ hsz ih =>
    have h8 : 8 ≤ wf.data.length := by
      have := ih.2; simp only [LEN_HEADER, IDX_MSG, IDX_CID, IDX_SID, LEN_LEN,
        LEN_SID, LEN_CID] at this ⊢; omega
    constructor
    · rw [ThesWF.len_write wf buf h8 (by rw [ih.1]; exact hsz),
          ThesWF.length_write wf buf h8, ih.1]
    · rw [ThesWF.length_write wf buf h8]
      have := ih.2
      simp only [LEN_HEADER, IDX_MSG, IDX_CID, IDX_SID, LEN_LEN, LEN_SID, LEN_CID]
        at this ⊢
      omega
  | set_sid wf s _ ih =>
    have h16 : 16 ≤ wf.data.length := by
      have := ih.2; simp only [LEN_HEADER, IDX_MSG, IDX_CID, IDX_SID, LEN_LEN,
        LEN_SID, LEN_CID] at this; omega
    rw [ThesWF.len_set_sid wf s h16, ThesWF.length_set_sid wf s h16]
    exact ih
  | set_cid wf c _ ih =>
    have h24 : 24 ≤ wf.data.length := by
      have := ih.2; simp only [LEN_HEADER, IDX_MSG, IDX_CID, IDX_SID, LEN_LEN,
        LEN_SID, LEN_CID] at this; omega
    rw [ThesWF.len_set_cid wf c h24, ThesWF.length_set_cid wf c h24]
    exact ih

/-! ## Claim theorems -/

/-- C1, counterexample: in the code the sid and cid fields are 8 bytes each
(`LEN_SID = LEN_CID = 8`), the header occupies 24 bytes, not 40, and the
payload of a concrete frame starts at offset 24 (dropping 40 bytes of a
frame with a 1-byte payload leaves nothing). -/
theorem c1_counterexample :
    LEN_SID = 8 ∧ LEN_CID = 8 ∧ LEN_HEADER = 24 ∧ ¬ LEN_HEADER = 40 ∧
    (ThesWF.write ThesWF.default [9]).msg = [9] ∧
    (ThesWF.write ThesWF.default [9]).data.drop 40 = [] := by
  decide

/-- C1, amended: the service id and connection id fields are each 8 bytes,
so the frame header (length, sid, cid) occupies 24 bytes and the payload
starts at byte offset 24; the encoded accessors `sid()` (bytes 8–16),
`cid()` (bytes 16–24) and `msg()` (bytes 24…) and the header-size constants
agree with these offsets for every frame: each setter is read back exactly
by its accessor and leaves every other field untouched. -/
theorem c1_header_layout_24_bytes (wf : ThesWF) (s c : Nat)
    (h : LEN_HEADER ≤ wf.data.length)
    (hs : s < 18446744073709551616) (hc : c < 18446744073709551616) :
    LEN_SID = 8 ∧ LEN_CID = 8 ∧ IDX_SID = 8 ∧ IDX_CID = 16 ∧ IDX_MSG = 24 ∧
    LEN_HEADER = 24 ∧
    (wf.set_sid s).sid = s ∧ (wf.set_cid c).cid = c ∧
    (wf.set_sid s).cid = wf.cid ∧ (wf.set_cid c).sid = wf.sid ∧
    (wf.set_sid s).msg = wf.msg ∧ (wf.set_cid c).msg = wf.msg ∧
    (wf.set_sid s).len = wf.len ∧ (wf.set_cid c).len = wf.len ∧
    wf.msg = wf.data.drop 24 := by
  have h24 : 24 ≤ wf.data.length := by
    simpa only [LEN_HEADER, IDX_MSG, IDX_CID, IDX_SID, LEN_LEN, LEN_SID, LEN_CID] using h
  have h16 : 16 ≤ wf.data.length := by omega
  refine ⟨rfl, rfl, rfl, rfl, rfl, rfl, ?_, ?_, ?_, ?_, ?_, ?_, ?_, ?_, rfl⟩
  · rw [ThesWF.sid_set_sid wf s h16, Nat.mod_eq_of_lt hs]
  · rw [ThesWF.cid_set_cid wf c h24, Nat.mod_eq_of_lt hc]
  · exact ThesWF.cid_set_sid wf s h16
  · exact ThesWF.sid_set_cid wf c h24
  · exact ThesWF.msg_set_sid wf s h16
  · exact ThesWF.msg_set_cid wf c h24
  · exact ThesWF.len_set_sid wf s h16
  · exact ThesWF.len_set_cid wf c h24

/-- C1 witness: the amended layout theorem applied to a concrete frame. -/
theorem c1_witness :
    LEN_HEADER ≤ ThesWF.default.data.length ∧
    (ThesWF.default.set_sid 5).sid = 5 ∧ (ThesWF.default.set_cid 7).cid = 7 :=
  let t := c1_header_layout_24_bytes ThesWF.default 5 7 (by decide) (by decide) (by decide)
  ⟨by decide, t.2.2.2.2.2.2.1, t.2.2.2.2.2.2.2.1⟩

/-- C5: a freshly constructed frame (`default` or `with_capacity`) has
length field = header length, null sid, null cid and empty payload;
appending `n` payload bytes through `io::Write` increases the length field
by exactly `n`; and over every reachable sequence of operations the length
field equals header length plus payload length, hence never drops below the
header length (an empty payload being valid). -/
theorem c5_length_field_invariant :
    (ThesWF.default.len = LEN_HEADER ∧ ThesWF.default.sid = 0 ∧
      ThesWF.default.cid = 0 ∧ ThesWF.default.msg = []) ∧
    (∀ size : Nat, (ThesWF.with_capacity size).len = LEN_HEADER ∧
      (ThesWF.with_capacity size).sid = 0 ∧ (ThesWF.with_capacity size).cid = 0 ∧
      (ThesWF.with_capacity size).msg = []) ∧
    (∀ (wf : ThesWF) (buf : List Nat), LEN_HEADER ≤ wf.data.length →
      wf.len + buf.length < 18446744073709551616 →
      (wf.write buf).len = wf.len + buf.length) ∧
    (∀ wf : ThesWF, ThesWF.Reachable wf →
      wf.len = LEN_HEADER + wf.msg.length ∧ LEN_HEADER ≤ wf.len) := by
  refine ⟨by decide, ?_, ?_, ?_⟩
  · intro size
    have he : ThesWF.with_capacity size = ThesWF.with_capacity 0 := rfl
    rw [he]
    exact ⟨by decide, by decide, by decide, by decide⟩
  · intro wf buf h hov
    exact ThesWF.len_write wf buf
      (by simp only [LEN_HEADER, IDX_MSG, IDX_CID, IDX_SID, LEN_LEN, LEN_SID,
            LEN_CID] at h; omega) hov
  · intro wf h
    obtain ⟨h1, h2⟩ := ThesWF.reachable_invariant wf h
    have hl : wf.msg.length = wf.data.length - 24 := by
      simp [ThesWF.msg, IDX_MSG, IDX_CID, IDX_SID, LEN_LEN, LEN_SID, LEN_CID]
    simp only [LEN_HEADER, IDX_MSG, IDX_CID, IDX_SID, LEN_LEN, LEN_SID, LEN_CID]
      at h2 ⊢
    omega

/-- C5 witness: the write-increment and the invariant at concrete frames. -/
theorem c5_witness :
    (ThesWF.write ThesWF.default [1, 2, 3]).len = ThesWF.default.len + 3 ∧
    ThesWF.default.len = LEN_HEADER + ThesWF.default.msg.length :=
  ⟨c5_length_field_invariant.2.2.1 ThesWF.default [1, 2, 3] (by decide) (by decide),
   (c5_length_field_invariant.2.2.2 ThesWF.default ThesWF.Reachable.default_).1⟩

/-- C8: `TryFrom<Vec<u8>> for ThesWF` fails (with a `Deserialize` error) if
and only if the input holds fewer bytes than the header length, and on
success the frame's underlying buffer is exactly the input bytes. -/
theorem c8_try_from_header_check (data : List Nat) :
    ((∃ e, ThesWF.try_from data = Except.error e) ↔ data.length < LEN_HEADER) ∧
    (∀ wf, ThesWF.try_from data = Except.ok wf → wf.data = data) := by
  by_cases h : data.length < LEN_HEADER
  · refine ⟨⟨fun _ => h, fun _ =>
      ⟨WireErr.deserialize "ThesWF: not enough bytes even for the header.",
       by simp [ThesWF.try_from, h]⟩⟩, ?_⟩
    intro wf hwf
    simp [ThesWF.try_from, h] at hwf
  · refine ⟨⟨fun ⟨e, he⟩ => ?_, fun hc => absurd hc h⟩, fun wf hwf => ?_⟩
    · simp [ThesWF.try_from, h] at he
    · simp only [ThesWF.try_from, if_neg h, Except.ok.injEq] at hwf
      rw [← hwf]

/-- C8 witness: the try-from theorem applied at a long and a short input. -/
theorem c8_witness :
    (⟨List.replicate 30 1⟩ : ThesWF).data = List.replicate 30 1 ∧
    (List.replicate 5 0).length < LEN_HEADER :=
  ⟨(c8_try_from_header_check (List.replicate 30 1)).2 ⟨List.replicate 30 1⟩ (by decide),
   (c8_try_from_header_check (List.replicate 5 0)).1.mp
     ⟨WireErr.deserialize "ThesWF: not enough bytes even for the header.", by decide⟩⟩

/-- C9: the `io::Write` implementation on `ThesWF` seeks to the end of the
internal buffer first, so a write appends after the existing payload: the
header bytes other than the length field (sid and cid) and all previously
appended payload bytes are unchanged by any write, and `flush` always
succeeds. -/
theorem c9_write_appends (wf : ThesWF) (buf : List Nat)
    (h : LEN_HEADER ≤ wf.data.length) :
    (wf.write buf).msg = wf.msg ++ buf ∧
    (wf.write buf).sid = wf.sid ∧
    (wf.write buf).cid = wf.cid ∧
    ThesWF.flush (wf.write buf) = Except.ok () :=
  ⟨ThesWF.msg_write wf buf h, ThesWF.sid_write wf buf h,
   ThesWF.cid_write wf buf h, rfl⟩

/-- C9 witness: the append theorem at a concrete frame. -/
theorem c9_witness :
    (ThesWF.write ThesWF.default [4, 5]).msg = ThesWF.default.msg ++ [4, 5] ∧
    (ThesWF.write ThesWF.default [4, 5]).sid = ThesWF.default.sid :=
  let t := c9_write_appends ThesWF.default [4, 5] (by decide)
  ⟨t.1, t.2.1⟩

/-- C2, counterexample: on a successful relayed call the code's `make_call`
future returns `Ok(())` — not a `Response::CallResponse` value — and itself
sends the response frame to the peer's own address, while the spec-side
`call_service_spec` returns the `Response` value and sends nothing.  So the
relay code does not return a `Response`, and the Peer is not the sole
writer. -/
theorem c2_counterexample :
    make_call 1 none 2 none ⟨5, 7, []⟩
        (RelayOutcome.response (Except.ok ⟨ServiceID.full, 7, [1, 2]⟩)) =
      ([PeerMsg.wire_format ⟨ServiceID.full, 7, [1, 2]⟩], Except.ok ()) ∧
    (make_call 1 none 2 none ⟨5, 7, []⟩
        (RelayOutcome.response (Except.ok ⟨ServiceID.full, 7, [1, 2]⟩))).1 ≠ [] ∧
    call_service_spec 1 none 2 none ⟨5, 7, []⟩
        (RelayOutcome.response (Except.ok ⟨ServiceID.full, 7, [1, 2]⟩)) =
      ([], Except.ok (Response.call_response ⟨ServiceID.full, 7, [1, 2]⟩)) := by
  refine ⟨rfl, ?_, rfl⟩
  intro hc
  cases hc

/-- C2, amended: for every relayed call, `make_call` awaits the single-shot
receiver obtained from the downstream address and, on success, sends the
downstream response frame to its own peer's address; on a remote-side error
it sends a wire-format error frame with the same cid (and sid = FULL) to
the peer; in both cases the future resolves to `Ok(())` — the relay writes
outbound frames through the peer's mailbox itself rather than returning a
`Response` value; only an unreachable relay mailbox makes the call return
an error (`RelayGone`). -/
theorem c2_relay_writes_through_peer (pid : Nat) (pname : Option String)
    (rid : Nat) (rname : Option String) (f r : Frame) (e : ConnectionError) :
    make_call pid pname rid rname f (RelayOutcome.response (Except.ok r)) =
      ([PeerMsg.wire_format r], Except.ok ()) ∧
    make_call pid pname rid rname f (RelayOutcome.response (Except.error e)) =
      ([PeerMsg.wire_format (Peer.prep_error f.cid e)], Except.ok ()) ∧
    (Peer.prep_error f.cid e).cid = f.cid ∧
    (Peer.prep_error f.cid e).sid = ServiceID.full ∧
    make_call pid pname rid rname f RelayOutcome.mailbox_closed =
      ([], Except.error (ThesRemoteErr.relayGone
        (Peer.err_ctx pid pname f.sid f.cid "Process incoming Call to relay")
        rid rname)) :=
  ⟨rfl, rfl, rfl, rfl, rfl⟩

/-- C3: evaluating the local service map at the failing input — a frame
whose sid (`0x03…03`) is not registered — both `send_service` and
`call_service` return `NoHandler` with a default context that carries no
service-id bytes, not the `UnknownService` error their own doc comments
announce. -/
theorem c3_unknown_sid_yields_no_handler :
    Services.send_service ⟨[1], []⟩ (fun _ _ => none)
        ⟨0x03030303030303030303030303030303, 0, []⟩ =
      Except.error (ThesRemoteErr.noHandler {}) ∧
    Services.call_service ⟨[1], []⟩ (fun _ _ => none)
        ⟨0x03030303030303030303030303030303, 77, []⟩ =
      Except.error (ThesRemoteErr.noHandler {}) ∧
    ThesRemoteErr.noHandler {} ≠ ThesRemoteErr.unknownService {} ∧
    ({} : ErrorContext).sid = none := by
  refine ⟨rfl, rfl, ?_, rfl⟩
  intro hc
  cases hc

/-- C4: after the Peer handles `CloseConnection` from an open state, its
stored self-address is cleared, the outbound sink is closed, the service
maps and the pending-call table are empty, and every call pending at close
time resolves with `ConnectionClosed`: its single-shot sender is dropped by
the clear, so the receiver resolves canceled and `RemoteAddr::call` maps
that to the `ConnectionClosed` error. -/
theorem c4_close_connection_cleanup (s : PeerState) (out : Sink)
    (h : s.outgoing = some out) :
    (Peer.handle_close_connection s).1.addr = none ∧
    (Peer.handle_close_connection s).2 = some { closed := true } ∧
    (Peer.handle_close_connection s).1.outgoing = none ∧
    (Peer.handle_close_connection s).1.listen_handle = none ∧
    (Peer.handle_close_connection s).1.services = [] ∧
    (Peer.handle_close_connection s).1.local_sm = [] ∧
    (Peer.handle_close_connection s).1.relay = [] ∧
    (Peer.handle_close_connection s).1.responses = [] ∧
    (∀ pending, pending ∈ s.responses → ∀ (pid : Nat) (pname : Option String) (sid : Nat),
      RemoteAddr.await_rx pid pname sid pending.1
          (OneshotRecv.canceled : OneshotRecv Frame) =
        Except.error (ThesRemoteErr.connectionClosed
          { context := some "Peer stopped before receiving response from remote call",
            peer_id := some pid, peer_name := pname,
            sid := some sid, cid := some pending.1 })) := by
  rcases s with ⟨addr, outg, lh, sv, lsm, rl, rsp⟩
  simp only at h
  subst h
  exact ⟨rfl, rfl, rfl, rfl, rfl, rfl, rfl, rfl, fun _ _ _ _ _ => rfl⟩

/-- C4 witness: the cleanup theorem at a concrete open peer state with one
pending call. -/
theorem c4_witness :
    (Peer.handle_close_connection
        ⟨some 1, some ⟨false⟩, some 2, [3], [(4, 5)], [], [(6, 7)]⟩).1.responses = [] ∧
    (Peer.handle_close_connection
        ⟨some 1, some ⟨false⟩, some 2, [3], [(4, 5)], [], [(6, 7)]⟩).1.addr = none ∧
    (Peer.handle_close_connection
        ⟨some 1, some ⟨false⟩, some 2, [3], [(4, 5)], [], [(6, 7)]⟩).2 =
      some { closed := true } :=
  let t := c4_close_connection_cleanup
    ⟨some 1, some ⟨false⟩, some 2, [3], [(4, 5)], [], [(6, 7)]⟩ ⟨false⟩ rfl
  ⟨t.2.2.2.2.2.2.2.1, t.1, t.2.1⟩

/-- C6: when the remote answers an outbound call with an error kind,
`RemoteAddr::call` wraps it as a `Remote` error, except a received
`Timeout`, which becomes the local `Timeout` error kind (never a
`Remote`-wrapped one), so callers can distinguish it. -/
theorem c6_timeout_not_wrapped_as_remote (ctx : ErrorContext) (err : ConnectionError) :
    (err.is_timeout = true →
      (∃ ctx2, RemoteAddr.map_remote_err ctx err = ThesRemoteErr.timeout ctx2) ∧
      (∀ e2 ctx2, RemoteAddr.map_remote_err ctx err ≠ ThesRemoteErr.remote e2 ctx2)) ∧
    (err.is_timeout = false →
      RemoteAddr.map_remote_err ctx err = ThesRemoteErr.remote err ctx) := by
  cases err with
  | timeout p =>
    constructor
    · intro _
      refine ⟨⟨_, rfl⟩, ?_⟩
      intro e2 ctx2 hcon
      cases hcon
    · intro h
      cases h
  | unknownService s =>
    refine ⟨fun h => ?_, fun _ => rfl⟩
    cases h
  | deserialize =>
    refine ⟨fun h => ?_, fun _ => rfl⟩
    cases h
  | serialize =>
    refine ⟨fun h => ?_, fun _ => rfl⟩
    cases h
  | lostRelay =>
    refine ⟨fun h => ?_, fun _ => rfl⟩
    cases h
  | internalServerError =>
    refine ⟨fun h => ?_, fun _ => rfl⟩
    cases h

/-- C6 witness: the mapping at a concrete timeout and a concrete
non-timeout remote error. -/
theorem c6_witness :
    RemoteAddr.map_remote_err {} ConnectionError.deserialize =
      ThesRemoteErr.remote ConnectionError.deserialize {} ∧
    (∃ ctx2, RemoteAddr.map_remote_err {} (ConnectionError.timeout []) =
      ThesRemoteErr.timeout ctx2) :=
  ⟨(c6_timeout_not_wrapped_as_remote {} ConnectionError.deserialize).2 rfl,
   ((c6_timeout_not_wrapped_as_remote {} (ConnectionError.timeout [])).1 rfl).1⟩

/-- C7: every frame submitted through `RemoteAddr`'s send path
(`Sink::start_send`) carries `cid = ConnID::null()` and is handed over as a
plain `WireFormat` frame, for which no pending entry is created; every
frame built for `RemoteAddr::call` carries exactly the freshly drawn cid
(the `ConnID::random()` draw, passed here as `cid`) and is submitted as a
`Call`, the message the Peer answers with the single-shot receiver the
caller then awaits. -/
theorem c7_send_null_cid_call_fresh_cid (sid : Nat) (bytes : List Nat) (cid : Nat) :
    RemoteAddr.start_send sid (Except.ok bytes) =
      Except.ok (PeerSubmission.wire_frame ⟨sid, ConnID.null, bytes⟩) ∧
    ConnID.null = 0 ∧
    RemoteAddr.call_submit sid (Except.ok bytes) cid =
      Except.ok (PeerSubmission.call (Call.new ⟨sid, cid, bytes⟩)) ∧
    (RemoteAddr.await_rx 1 none sid cid
        (OneshotRecv.received
          ((Except.ok ⟨ServiceID.full, cid, bytes⟩ : Except ConnectionError Frame))) =
      Except.ok (Except.ok ⟨ServiceID.full, cid, bytes⟩)) :=
  ⟨rfl, rfl, rfl, rfl⟩

/-- C10: encoding `Codecs::CBOR` yields exactly the 4 bytes
`0x51 00 00 00` (little-endian `u32`); decoding round-trips for every
codec value; and a 4-byte value that is not a known codec number decodes
to an error. -/
theorem c10_codecs_roundtrip :
    Codecs.into_bytes Codecs.CBOR = [0x51, 0, 0, 0] ∧
    (∀ c, Codecs.try_from (Codecs.into_bytes c) = some (Except.ok c)) ∧
    (∀ b0 b1 b2 b3 : Nat,
      Codecs.from_u32 (b0 + 256 * b1 + 65536 * b2 + 16777216 * b3) = none →
      Codecs.try_from [b0, b1, b2, b3] =
        some (Except.error "Failed to convert u32 to Codecs")) := by
  refine ⟨rfl, ?_, ?_⟩
  · intro c
    cases c
    rfl
  · intro b0 b1 b2 b3 h
    simp [Codecs.try_from, read_u32_le, h]

/-- C10 witness: the round-trip at `CBOR` and the error at the unknown
codec number `0x52`. -/
theorem c10_witness :
    Codecs.try_from [0x52, 0, 0, 0] =
      some (Except.error "Failed to convert u32 to Codecs") ∧
    Codecs.try_from (Codecs.into_bytes Codecs.CBOR) = some (Except.ok Codecs.CBOR) :=
  ⟨c10_codecs_roundtrip.2.2 0x52 0 0 0 (by decide),
   c10_codecs_roundtrip.2.1 Codecs.CBOR⟩
